import Mathlib

/-!
Verification of the predicate filtering and row-group pruning engine of
`parquet-lens-core` (file `src/parquet-lens-core/src/filter.rs`), as a shallow
embedding in Lean 4.

Modelling conventions:
* Rust `i64`/`i32` values are modelled as `ℤ`.  The code only compares such
  values (never adds or multiplies them), and comparison of in-range machine
  integers agrees with comparison in `ℤ`, so no wraparound can be observed.
* Rust `f64`/`f32` values are modelled as `ℚ`.  The engine only compares
  floats and truncates them to integers; both operations are exact on the
  (finite) float values that occur, so `ℚ` is a faithful abstraction for the
  properties proved here (NaN and the infinities are not modelled; no claim
  involves them).
* Arrow arrays are modelled as `List (Option _)` (`none` = null entry).
* Fallible Rust functions returning `Result<_, String>` become `Except`.
  A Rust panic (an out-of-bounds slice) is modelled by the distinguished
  outcome `PErr.panicked`.
-/

namespace ParquetLens

/-! ### AST (`CmpOp`, `Value`, `Predicate` from filter.rs) -/

inductive CmpOp
  | eq
  | ne
  | lt
  | le
  | gt
  | ge
deriving DecidableEq

/-- `Value` from filter.rs.  `Int(i64)` is modelled as `ℤ` and `Float(f64)`
as `ℚ` (see the module conventions above). -/
inductive Value
  | int (v : ℤ)
  | float (q : ℚ)
  | str (s : String)
  | bool (b : Bool)
  | null
deriving DecidableEq

/-- `Predicate` from filter.rs.  The Rust variant `In` is spelled `inn`
(`in` is a Lean keyword). -/
inductive Predicate
  | comparison (col : String) (op : CmpOp) (val : Value)
  | isNull (col : String)
  | isNotNull (col : String)
  | inn (col : String) (vals : List Value)
  | like (col : String) (pattern : String)
  | and (a b : Predicate)
  | or (a b : Predicate)
  | not (p : Predicate)
deriving DecidableEq

/-! ### Row-group metadata and statistics

The parquet crate's `Statistics` enum, restricted to what `stat_can_skip`
inspects: typed optional min/max plus an optional null count.  Variants the
code never prunes on (`Boolean`, `Int96`, `ByteArray`, ...) are collapsed
into `other` (they all fall into the `_ => false` arm of `stat_can_skip`). -/

inductive Statistics
  | int32 (min max : Option ℤ) (nullCount : Option ℕ)
  | int64 (min max : Option ℤ) (nullCount : Option ℕ)
  | float (min max : Option ℚ) (nullCount : Option ℕ)
  | double (min max : Option ℚ) (nullCount : Option ℕ)
  | other (nullCount : Option ℕ)
deriving DecidableEq

/-- `Statistics::null_count_opt` from the parquet crate. -/
def Statistics.null_count_opt : Statistics → Option ℕ
  | .int32 _ _ nc => nc
  | .int64 _ _ nc => nc
  | .float _ _ nc => nc
  | .double _ _ nc => nc
  | .other nc => nc

/-- One column chunk of a row group: its column name and its optional
statistics (`ColumnChunkMetaData::column_descr().name()` and
`ColumnChunkMetaData::statistics()`). -/
structure ColumnChunkMeta where
  name : String
  stats : Option Statistics
deriving DecidableEq

/-- `RowGroupMetaData`: the per-column chunks and the row count. -/
structure RowGroupMeta where
  columns : List ColumnChunkMeta
  numRows : ℕ
deriving DecidableEq

/-- `find_col_stats` from filter.rs: statistics of the first column chunk
whose name matches, `none` if no column matches (or the matching chunk has
no statistics). -/
def find_col_stats (col : String) (rg : RowGroupMeta) : Option Statistics :=
  match rg.columns.find? (fun cm => cm.name == col) with
  | some cm => cm.stats
  | none => none

/-! ### `stat_can_skip` and `can_skip_row_group` from filter.rs -/

/-- `stat_can_skip` from filter.rs, branch for branch.  The `i32 as i64` and
`f32 as f64` widening casts of the source are identities in `ℤ`/`ℚ`. -/
def stat_can_skip (stats : Statistics) (op : CmpOp) (val : Value) : Bool :=
  match stats, val with
  | .int32 mno mxo _, .int v =>
    match mno, mxo with
    | some mn, some mx =>
      match op with
      | .eq => decide (v < mn ∨ v > mx)
      | .lt => decide (v ≤ mn)
      | .le => decide (v < mn)
      | .gt => decide (v ≥ mx)
      | .ge => decide (v > mx)
      | .ne => false
    | _, _ => false
  | .int64 mno mxo _, .int v =>
    match mno, mxo with
    | some mn, some mx =>
      match op with
      | .eq => decide (v < mn ∨ v > mx)
      | .lt => decide (v ≤ mn)
      | .le => decide (v < mn)
      | .gt => decide (v ≥ mx)
      | .ge => decide (v > mx)
      | .ne => false
    | _, _ => false
  | .float mno mxo _, .float v =>
    match mno, mxo with
    | some mn, some mx =>
      match op with
      | .eq => decide (v < mn ∨ v > mx)
      | .lt => decide (v ≤ mn)
      | .le => decide (v < mn)
      | .gt => decide (v ≥ mx)
      | .ge => decide (v > mx)
      | .ne => false
    | _, _ => false
  | .double mno mxo _, .float v =>
    match mno, mxo with
    | some mn, some mx =>
      match op with
      | .eq => decide (v < mn ∨ v > mx)
      | .lt => decide (v ≤ mn)
      | .le => decide (v < mn)
      | .gt => decide (v ≥ mx)
      | .ge => decide (v > mx)
      | .ne => false
    | _, _ => false
  | .int32 mno mxo _, .float v =>
    match mno, mxo with
    | some mn, some mx =>
      match op with
      | .eq => decide (v < (mn : ℚ) ∨ v > (mx : ℚ))
      | .lt => decide (v ≤ (mn : ℚ))
      | .le => decide (v < (mn : ℚ))
      | .gt => decide (v ≥ (mx : ℚ))
      | .ge => decide (v > (mx : ℚ))
      | .ne => false
    | _, _ => false
  | .int64 mno mxo _, .float v =>
    match mno, mxo with
    | some mn, some mx =>
      match op with
      | .eq => decide (v < (mn : ℚ) ∨ v > (mx : ℚ))
      | .lt => decide (v ≤ (mn : ℚ))
      | .le => decide (v < (mn : ℚ))
      | .gt => decide (v ≥ (mx : ℚ))
      | .ge => decide (v > (mx : ℚ))
      | .ne => false
    | _, _ => false
  | _, _ => false

/-- `can_skip_row_group` from filter.rs. -/
def can_skip_row_group (pred : Predicate) (rg : RowGroupMeta) : Bool :=
  match pred with
  | .and a b => can_skip_row_group a rg || can_skip_row_group b rg
  | .or a b => can_skip_row_group a rg && can_skip_row_group b rg
  | .not _ => false
  | .comparison col op val =>
    match find_col_stats col rg with
    | some s => stat_can_skip s op val
    | none => false
  | .isNull col =>
    match find_col_stats col rg with
    | some s =>
      match s.null_count_opt with
      | some nc => nc == 0
      | none => false
    | none => false
  | .isNotNull _ => false
  | .inn _ _ => false
  | .like _ _ => false

/-! ### Decoded batches (Arrow `RecordBatch`)

A decoded column is a list of optional values (`none` = null).  The source
downcasts to `Int32Array`, `Int64Array`, `Float32Array`, `Float64Array`,
`StringArray`, `BooleanArray`; every other element type falls through to the
all-false mask and is modelled by `other` (which keeps only its null
flags, for `is_null`/`is_not_null`). -/

inductive Column
  | int32 (vals : List (Option ℤ))
  | int64 (vals : List (Option ℤ))
  | float32 (vals : List (Option ℚ))
  | float64 (vals : List (Option ℚ))
  | str (vals : List (Option String))
  | bool (vals : List (Option Bool))
  | other (nulls : List Bool)
deriving DecidableEq

/-- `Array::is_null(i)` of a decoded column (out-of-range reads never occur
in the source, where every column has exactly `num_rows` entries). -/
def Column.isNullAt : Column → ℕ → Bool
  | .int32 vals, i => (vals.getD i none).isNone
  | .int64 vals, i => (vals.getD i none).isNone
  | .float32 vals, i => (vals.getD i none).isNone
  | .float64 vals, i => (vals.getD i none).isNone
  | .str vals, i => (vals.getD i none).isNone
  | .bool vals, i => (vals.getD i none).isNone
  | .other nulls, i => nulls.getD i false

/-- A `RecordBatch`: named columns plus the row count. -/
structure Batch where
  cols : List (String × Column)
  numRows : ℕ
deriving DecidableEq

/-- `batch.schema().index_of(col)` followed by `batch.column(i)`: the first
column whose name matches. -/
def batchColumn (b : Batch) (c : String) : Option Column :=
  (b.cols.find? (fun p => p.1 == c)).map (fun p => p.2)

/-- Rust's `f64 as i64` cast: truncation toward zero (saturation and the
NaN case cannot arise in `ℚ`). -/
def ratTrunc (q : ℚ) : ℤ :=
  if 0 ≤ q.num then ((q.num.natAbs / q.den : ℕ) : ℤ)
  else -((q.num.natAbs / q.den : ℕ) : ℤ)

/-- `cmp_i64` from filter.rs. -/
def cmp_i64 (v : ℤ) (op : CmpOp) (cv : ℤ) : Bool :=
  match op with
  | .eq => v == cv
  | .ne => v != cv
  | .lt => decide (v < cv)
  | .le => decide (v ≤ cv)
  | .gt => decide (v > cv)
  | .ge => decide (v ≥ cv)

/-- `cmp_f64` from filter.rs (floats as `ℚ`). -/
def cmp_f64 (v : ℚ) (op : CmpOp) (cv : ℚ) : Bool :=
  match op with
  | .eq => v == cv
  | .ne => v != cv
  | .lt => decide (v < cv)
  | .le => decide (v ≤ cv)
  | .gt => decide (v > cv)
  | .ge => decide (v ≥ cv)

/-- String comparison of `build_mask`'s `StringArray` arm.  Rust compares
`&str` by UTF-8 bytes; for valid UTF-8 that equals the code-point-wise
lexicographic order used by Lean's `String` order. -/
def cmpStr (v : String) (op : CmpOp) (sv : String) : Bool :=
  match op with
  | .eq => v == sv
  | .ne => v != sv
  | .lt => decide (v < sv)
  | .le => decide (v ≤ sv)
  | .gt => decide (sv < v)
  | .ge => decide (sv ≤ v)

/-- The per-row loop shared by every `build_mask` arm: for `i in 0..n`,
append `false` when the cell is null, else apply the row comparison. -/
def maskOfCol {α : Type} (vals : List (Option α)) (n : ℕ) (f : α → Bool) : List Bool :=
  (List.range n).map (fun i =>
    match vals.getD i none with
    | some v => f v
    | none => false)

/-- `build_mask` from filter.rs.  Each arm mirrors one downcast attempt of
the source; the `i32 as i64`/`f32 as f64` value widenings are identities in
the model, and `f64 as i64` is `ratTrunc`. -/
def build_mask (arr : Column) (op : CmpOp) (val : Value) (n : ℕ) : List Bool :=
  match arr with
  | .int32 vals =>
    match (match val with
           | .int v => some v
           | .float q => some (ratTrunc q)
           | _ => none : Option ℤ) with
    | some cv => maskOfCol vals n (fun v => cmp_i64 v op cv)
    | none => List.replicate n false
  | .int64 vals =>
    match (match val with
           | .int v => some v
           | .float q => some (ratTrunc q)
           | _ => none : Option ℤ) with
    | some cv => maskOfCol vals n (fun v => cmp_i64 v op cv)
    | none => List.replicate n false
  | .float32 vals =>
    match (match val with
           | .float q => some q
           | .int v => some (v : ℚ)
           | _ => none : Option ℚ) with
    | some cv => maskOfCol vals n (fun v => cmp_f64 v op cv)
    | none => List.replicate n false
  | .float64 vals =>
    match (match val with
           | .float q => some q
           | .int v => some (v : ℚ)
           | _ => none : Option ℚ) with
    | some cv => maskOfCol vals n (fun v => cmp_f64 v op cv)
    | none => List.replicate n false
  | .str vals =>
    match val with
    | .str sv => maskOfCol vals n (fun v => cmpStr v op sv)
    | _ => List.replicate n false
  | .bool vals =>
    match val with
    | .bool bv =>
      maskOfCol vals n (fun v =>
        match op with
        | .eq => v == bv
        | .ne => v != bv
        | _ => false)
    | _ => List.replicate n false
  | .other _ => List.replicate n false

/-- `eval_comparison` from filter.rs. -/
def eval_comparison (c : String) (op : CmpOp) (val : Value) (b : Batch) : List Bool :=
  match batchColumn b c with
  | none => List.replicate b.numRows false
  | some arr => build_mask arr op val b.numRows

/-- `eval_in` from filter.rs: OR of per-value equality masks; an empty value
list yields the all-false mask. -/
def eval_in (c : String) (vals : List Value) (b : Batch) : List Bool :=
  let n := b.numRows
  match batchColumn b c with
  | none => List.replicate n false
  | some arr =>
    if vals.isEmpty then List.replicate n false
    else
      vals.foldl
        (fun acc v => List.zipWith (fun x y => x || y) acc (build_mask arr .eq v n))
        (List.replicate n false)

/-! ### The LIKE matcher (`like_to_regex`, `like_match_at`)

Strings are lists of Unicode scalars here.  The source walks byte indices
but only at character boundaries (`starts_with` of a literal, dropping the
literal's byte length, `is_char_boundary` filtering in the `Any` loop), so
the byte-level walk coincides with this scalar-level one. -/

inductive LikePart
  | literal (lit : List Char)
  | any
  | one
deriving DecidableEq

/-- Accumulator pass of `like_to_regex`: `lit` holds the pending literal run
in reverse. -/
def likeCompileGo : List Char → List Char → List LikePart
  | lit, [] => if lit.isEmpty then [] else [LikePart.literal lit.reverse]
  | lit, c :: rest =>
    if c = '%' then
      (if lit.isEmpty then [] else [LikePart.literal lit.reverse])
        ++ LikePart.any :: likeCompileGo [] rest
    else if c = '_' then
      (if lit.isEmpty then [] else [LikePart.literal lit.reverse])
        ++ LikePart.one :: likeCompileGo [] rest
    else likeCompileGo (c :: lit) rest

/-- `like_to_regex` from filter.rs. -/
def like_to_regex (pattern : List Char) : List LikePart :=
  likeCompileGo [] pattern

/-- `str::starts_with` on scalar lists: is the second list a leading run of
the first? -/
def starts_with : List Char → List Char → Bool
  | _, [] => true
  | [], _ :: _ => false
  | c :: s, d :: l => c == d && starts_with s l

/-- `like_match_at` from filter.rs.  The `Any` arm tries every split point
`i ≤ s.length`, as the source tries every character boundary. -/
def like_match_at : List Char → List LikePart → Bool
  | s, [] => s.isEmpty
  | s, .literal lit :: rest =>
    if starts_with s lit then like_match_at (s.drop lit.length) rest else false
  | s, .one :: rest =>
    match s with
    | [] => false
    | _ :: tail => like_match_at tail rest
  | s, .any :: rest =>
    (List.range (s.length + 1)).any (fun i => like_match_at (s.drop i) rest)

/-- `like_match` from filter.rs (a direct wrapper). -/
def like_match (s : List Char) (parts : List LikePart) : Bool :=
  like_match_at s parts

/-- `eval_like` from filter.rs. -/
def eval_like (c : String) (pattern : String) (b : Batch) : List Bool :=
  let n := b.numRows
  match batchColumn b c with
  | none => List.replicate n false
  | some arr =>
    match arr with
    | .str vals =>
      let re := like_to_regex pattern.data
      maskOfCol vals n (fun s => like_match s.data re)
    | _ => List.replicate n false

/-- `eval_predicate_batch` from filter.rs.  `arrow::compute::and`/`or`/`not`
are element-wise on the equal-length non-null masks this function builds
(their error fallback can only fire on length mismatch, which cannot occur
here: every arm returns a mask of length `num_rows`). -/
def eval_predicate_batch (pred : Predicate) (b : Batch) : List Bool :=
  match pred with
  | .and p q =>
    List.zipWith (fun x y => x && y) (eval_predicate_batch p b) (eval_predicate_batch q b)
  | .or p q =>
    List.zipWith (fun x y => x || y) (eval_predicate_batch p b) (eval_predicate_batch q b)
  | .not p => (eval_predicate_batch p b).map (fun x => !x)
  | .isNull c =>
    match batchColumn b c with
    | some col => (List.range b.numRows).map (fun i => col.isNullAt i)
    | none => List.replicate b.numRows false
  | .isNotNull c =>
    match batchColumn b c with
    | some col => (List.range b.numRows).map (fun i => !(col.isNullAt i))
    | none => List.replicate b.numRows false
  | .comparison c op v => eval_comparison c op v b
  | .inn c vals => eval_in c vals b
  | .like c pat => eval_like c pat b

/-- `predicate_columns` from filter.rs. -/
def predicate_columns : Predicate → List String
  | .comparison c _ _ => [c]
  | .isNull c => [c]
  | .isNotNull c => [c]
  | .inn c _ => [c]
  | .like c _ => [c]
  | .and a b => predicate_columns a ++ predicate_columns b
  | .or a b => predicate_columns a ++ predicate_columns b
  | .not p => predicate_columns p

/-! ### The filter driver (`filter_count`)

The parquet I/O collaborator is abstracted per spec §6: a file exposes its
leaf schema column names, and per row group its metadata plus the decoded
batch of that group's rows (the source's `RowSelection` decodes exactly the
non-skipped groups, one batch stream over them; modelling one batch per
group preserves every aggregate the code computes).  The display-only
`sample_headers`/`sample_rows` fields (string renderings of up to 10
matching rows) are not modelled: no claim mentions them and rendering `f64`
to decimal text has no exact `ℚ` counterpart. -/

structure PFile where
  schemaNames : List String
  groups : List (RowGroupMeta × Batch)
deriving DecidableEq

/-- `FilterResult` from filter.rs (counters only, see above). -/
structure FilterResult where
  matched_rows : ℕ
  scanned_rows : ℕ
  skipped_rgs : ℕ
  total_rgs : ℕ
deriving DecidableEq

/-- `mask.true_count()`. -/
def true_count (mask : List Bool) : ℕ :=
  mask.countP (fun x => x)

/-- `filter_count` from filter.rs: validate referenced columns against the
schema (first missing one reported with the available names), run the
pruner over every row group, scan only the non-skipped groups, accumulate
scanned and matched row counts. -/
def filter_count (f : PFile) (pred : Predicate) : Except String FilterResult :=
  match (predicate_columns pred).find? (fun c => !(f.schemaNames.contains c)) with
  | some c =>
    .error ("column '" ++ c ++ "' not found in schema (available: "
      ++ String.intercalate ", " f.schemaNames ++ ")")
  | none =>
    let total_rgs := f.groups.length
    let skipped_rgs := f.groups.countP (fun g => can_skip_row_group pred g.1)
    let scans := f.groups.filter (fun g => !(can_skip_row_group pred g.1))
    let scanned_rows := (scans.map (fun g => g.2.numRows)).sum
    let matched_rows :=
      (scans.map (fun g => true_count (eval_predicate_batch pred g.2))).sum
    .ok ⟨matched_rows, scanned_rows, skipped_rgs, total_rgs⟩

/-! ### The lexer (`tokenize` from filter.rs) -/

/-- The string-literal scanning loop of `tokenize`: `acc` holds the token's
characters so far in reverse (starting with the opening quote), `q` is the
quote character.  A backslash followed by a quote pushes the quote alone;
any other backslash is pushed verbatim (its successor is reprocessed); the
matching quote is pushed and ends the token; end of input ends the token
unterminated.  The `fuel` argument only bounds the recursion: every
iteration consumes at least one input character, so the `length + 1` fuel
supplied by the caller never reaches the `0` arm. -/
def scanString (q : Char) : ℕ → List Char → List Char → List Char × List Char
  | 0, acc, l => (acc.reverse, l)
  | _ + 1, acc, [] => (acc.reverse, [])
  | fuel + 1, acc, c :: rest =>
    if c = '\\' then
      match rest with
      | d :: rest2 =>
        if d = '\'' ∨ d = '"' then scanString q fuel (d :: acc) rest2
        else scanString q fuel ('\\' :: acc) (d :: rest2)
      | [] => (('\\' :: acc).reverse, [])
    else if c = q then ((c :: acc).reverse, rest)
    else scanString q fuel (c :: acc) rest

/-- The identifier/number scanning loop of `tokenize`: stops at whitespace
or any character of the reserved set `(),='"<>!`. -/
def scanWord : List Char → List Char → List Char × List Char
  | acc, [] => (acc.reverse, [])
  | acc, c :: rest =>
    if c.isWhitespace ∨ ['(', ')', ',', '=', '\'', '"', '<', '>', '!'].contains c then
      (acc.reverse, c :: rest)
    else scanWord (c :: acc) rest

/-- Main loop of `tokenize`.  `fuel` only bounds the recursion; every
iteration consumes at least one character, so the `fuel = length + 1`
supplied by `tokenize` never runs out and the `0` arm is unreachable. -/
def tokenizeGo : ℕ → List Char → List String
  | 0, _ => []
  | fuel + 1, l =>
    match l with
    | [] => []
    | c :: rest =>
      if c.isWhitespace then tokenizeGo fuel rest
      else if c = '\'' ∨ c = '"' then
        let p := scanString c (rest.length + 1) [c] rest
        String.mk p.1 :: tokenizeGo fuel p.2
      else if c = '<' ∨ c = '>' ∨ c = '!' ∨ c = '=' then
        match rest with
        | d :: rest2 =>
          if (c = '<' ∨ c = '>' ∨ c = '!') ∧ d = '='
          then String.mk [c, d] :: tokenizeGo fuel rest2
          else String.mk [c] :: tokenizeGo fuel rest
        | [] => [String.mk [c]]
      else if c = '(' ∨ c = ')' ∨ c = ',' then
        String.mk [c] :: tokenizeGo fuel rest
      else
        let p := scanWord [c] rest
        String.mk p.1 :: tokenizeGo fuel p.2

/-- `tokenize` from filter.rs.  (Rust's `char::is_whitespace` is Unicode
White_Space while Lean's `Char.isWhitespace` is its ASCII subset; the two
agree on every input any claim touches.) -/
def tokenize (input : String) : List String :=
  tokenizeGo (input.data.length + 1) input.data

/-! ### The parser

`PErr.syn` is the parser's `Err(String)`; `PErr.panicked` marks the one
place the Rust source can panic (the out-of-bounds slice in `strip_quotes`
on a 1-byte quoted token); `PErr.fuelOut` marks recursion-fuel exhaustion,
which the generous fuel chosen by `parse_predicate` makes unreachable for
the inputs evaluated here. -/

inductive PErr
  | syn (msg : String)
  | panicked
  | fuelOut
deriving DecidableEq

/-- `strip_quotes` from filter.rs.  When the token both starts and ends
with the same quote character, the source slices `s[1..s.len()-1]`; for a
1-byte token (a lone quote) that byte range is inverted and the slice
panics. -/
def strip_quotes (s : String) : Except PErr String :=
  let cs := s.data
  if (cs.head? = some '\'' ∧ cs.getLast? = some '\'')
      ∨ (cs.head? = some '"' ∧ cs.getLast? = some '"') then
    if 2 ≤ cs.length then .ok (String.mk ((cs.drop 1).dropLast))
    else .error .panicked
  else .ok s

/-- Numeric value of a digit run (callers have already checked the digits). -/
def natOfDigits (cs : List Char) : ℕ :=
  cs.foldl (fun a c => a * 10 + (c.toNat - 48)) 0

/-- Rust `str::parse::<i64>()`: optional sign, a nonempty all-digit run,
and the value must fit in `i64`. -/
def parseI64 (s : String) : Option ℤ :=
  let p : Bool × List Char :=
    match s.data with
    | '-' :: r => (true, r)
    | '+' :: r => (false, r)
    | r => (false, r)
  if p.2 ≠ [] ∧ p.2.all Char.isDigit then
    let v : ℤ := if p.1 then -(natOfDigits p.2 : ℤ) else (natOfDigits p.2 : ℤ)
    if -(2 ^ 63) ≤ v ∧ v < 2 ^ 63 then some v else none
  else none

/-- Rust `str::parse::<f64>()`, modelled exactly over `ℚ`: optional sign,
a mantissa (`digits['.'[digits]]` or `'.'digits`), optional exponent.
Not modelled: the `inf`/`infinity`/`nan` spellings (no `ℚ` value) and the
round-to-nearest-double step (the parsed rational is kept exact); no claim
depends on either. -/
def parseF64 (s : String) : Option ℚ :=
  let p : Bool × List Char :=
    match s.data with
    | '-' :: r => (true, r)
    | '+' :: r => (false, r)
    | r => (false, r)
  let r1 := p.2
  let ip := r1.takeWhile Char.isDigit
  let r2 := r1.dropWhile Char.isDigit
  let mant : Option (ℚ × List Char) :=
    match r2 with
    | '.' :: r3 =>
      let fp := r3.takeWhile Char.isDigit
      let r4 := r3.dropWhile Char.isDigit
      if ip.isEmpty ∧ fp.isEmpty then none
      else some ((natOfDigits ip : ℚ) + (natOfDigits fp : ℚ) / (10 : ℚ) ^ fp.length, r4)
    | _ =>
      if ip.isEmpty then none else some ((natOfDigits ip : ℚ), r2)
  match mant with
  | none => none
  | some (m, rest) =>
    let q : Option ℚ :=
      match rest with
      | [] => some m
      | e :: r5 =>
        if e = 'e' ∨ e = 'E' then
          let ep : Bool × List Char :=
            match r5 with
            | '-' :: r6 => (true, r6)
            | '+' :: r6 => (false, r6)
            | r6 => (false, r6)
          if ep.2 ≠ [] ∧ ep.2.all Char.isDigit then
            some (if ep.1 then m / (10 : ℚ) ^ natOfDigits ep.2
                  else m * (10 : ℚ) ^ natOfDigits ep.2)
          else none
        else none
    q.map (fun v => if p.1 then -v else v)

/-- `Parser::parse_value`, after the token has been taken: the literal
classification chain (exact `NULL`/`null`, exact `true`/`TRUE` and
`false`/`FALSE`, quoted string, `i64`, `f64`, bare string). -/
def parse_value_tok (t : String) : Except PErr Value :=
  if t = "NULL" ∨ t = "null" then .ok .null
  else if t = "true" ∨ t = "TRUE" then .ok (.bool true)
  else if t = "false" ∨ t = "FALSE" then .ok (.bool false)
  else if t.data.head? = some '\'' ∨ t.data.head? = some '"' then
    (strip_quotes t).map Value.str
  else
    match parseI64 t with
    | some i => .ok (.int i)
    | none =>
      match parseF64 t with
      | some q => .ok (.float q)
      | none => .ok (.str t)

/-- `Parser::parse_value` (consume one token, classify it).  The parser
state (`tokens`, `pos`) is modelled by the remaining-token suffix. -/
def parse_value : List String → Except PErr (Value × List String)
  | [] => .error (.syn "expected value, got EOF")
  | t :: rest => do
    let v ← parse_value_tok t
    .ok (v, rest)

/-- ASCII uppercase, character by character.  Rust's `to_uppercase` (in
`peek_upper`) is full Unicode and `eq_ignore_ascii_case` (in `expect`) folds
ASCII only, but both are only ever matched against all-ASCII keywords, where
the three agree. -/
def upperAscii (s : String) : String :=
  String.mk (s.data.map Char.toUpper)

/-- `Parser::peek_upper`. -/
def peekUpper (ts : List String) : Option String :=
  ts.head?.map upperAscii

/-- `Parser::expect` (ASCII-case-insensitive token match). -/
def expectTok (s : String) : List String → Except PErr (List String)
  | t :: rest =>
    if upperAscii t == upperAscii s then .ok rest
    else .error (.syn ("expected '" ++ s ++ "', got '" ++ t ++ "'"))
  | [] => .error (.syn ("expected '" ++ s ++ "', got EOF"))

/-- The comparison-operator arm of `parse_atom` (note the `<>` arm of the
source, kept here: the lexer never produces a `<>` token, so it is dead). -/
def cmpOpOfTok (t : String) : Option CmpOp :=
  if t = "=" then some .eq
  else if t = "!=" ∨ t = "<>" then some .ne
  else if t = "<" then some .lt
  else if t = "<=" then some .le
  else if t = ">" then some .gt
  else if t = ">=" then some .ge
  else none

mutual

/-- `Parser::parse_or`.  All parse functions carry recursion fuel; see
`PErr.fuelOut`. -/
def parse_or : ℕ → List String → Except PErr (Predicate × List String)
  | 0, _ => .error .fuelOut
  | f + 1, ts => do
    let r ← parse_and f ts
    or_loop f r.1 r.2

/-- The `while peek_upper == Some("OR")` loop of `parse_or`. -/
def or_loop : ℕ → Predicate → List String → Except PErr (Predicate × List String)
  | 0, _, _ => .error .fuelOut
  | f + 1, left, ts =>
    if peekUpper ts = some "OR" then do
      let r ← parse_and f ts.tail
      or_loop f (.or left r.1) r.2
    else .ok (left, ts)

/-- `Parser::parse_and`. -/
def parse_and : ℕ → List String → Except PErr (Predicate × List String)
  | 0, _ => .error .fuelOut
  | f + 1, ts => do
    let r ← parse_not f ts
    and_loop f r.1 r.2

/-- The `while peek_upper == Some("AND")` loop of `parse_and`. -/
def and_loop : ℕ → Predicate → List String → Except PErr (Predicate × List String)
  | 0, _, _ => .error .fuelOut
  | f + 1, left, ts =>
    if peekUpper ts = some "AND" then do
      let r ← parse_not f ts.tail
      and_loop f (.and left r.1) r.2
    else .ok (left, ts)

/-- `Parser::parse_not`. -/
def parse_not : ℕ → List String → Except PErr (Predicate × List String)
  | 0, _ => .error .fuelOut
  | f + 1, ts =>
    if peekUpper ts = some "NOT" then do
      let r ← parse_not f ts.tail
      .ok (.not r.1, r.2)
    else parse_atom f ts

/-- `Parser::parse_atom`. -/
def parse_atom : ℕ → List String → Except PErr (Predicate × List String)
  | 0, _ => .error .fuelOut
  | f + 1, ts =>
    if ts.head? = some "(" then do
      let r ← parse_or f ts.tail
      let ts2 ← expectTok ")" r.2
      .ok (r.1, ts2)
    else
      match ts with
      | [] => .error (.syn "expected column name, got EOF")
      | col :: rest =>
        if peekUpper rest = some "IS" then
          if peekUpper rest.tail = some "NOT" then do
            let ts2 ← expectTok "NULL" rest.tail.tail
            .ok (.isNotNull col, ts2)
          else do
            let ts2 ← expectTok "NULL" rest.tail
            .ok (.isNull col, ts2)
        else if peekUpper rest = some "IN" then do
          let ts1 ← expectTok "(" rest.tail
          let r ← in_loop f [] ts1
          .ok (.inn col r.1, r.2)
        else if peekUpper rest = some "LIKE" then
          match rest.tail with
          | t :: rest2 => do
            let pat ← strip_quotes t
            .ok (.like col pat, rest2)
          | [] => .error (.syn "expected pattern after LIKE")
        else
          match rest with
          | [] => .error (.syn "expected comparison operator, got EOF")
          | t :: rest2 =>
            match cmpOpOfTok t with
            | some op => do
              let r ← parse_value rest2
              .ok (.comparison col op r.1, r.2)
            | none =>
              .error (.syn ("expected comparison operator, got '" ++ t ++ "'"))

/-- The `loop` over the IN list in `parse_atom`: a value is parsed first,
then a `,` continues and a `)` ends the list. -/
def in_loop : ℕ → List Value → List String → Except PErr (List Value × List String)
  | 0, _, _ => .error .fuelOut
  | f + 1, vals, ts => do
    let r ← parse_value ts
    match r.2 with
    | "," :: rest => in_loop f (vals ++ [r.1]) rest
    | ")" :: rest => .ok (vals ++ [r.1], rest)
    | t :: _ => .error (.syn ("expected ',' or ')' in IN list, got '" ++ t ++ "'"))
    | [] => .error (.syn "unexpected EOF in IN list")

end

/-- `parse_predicate` from filter.rs (`Parser::new` + `Parser::parse`,
including the trailing-token check).  The fuel `4 * tokens + 8` covers the
parser's maximal call nesting: at least one token is consumed per four
levels of descent. -/
def parse_predicate (input : String) : Except PErr Predicate :=
  let ts := tokenize input
  match parse_or (4 * ts.length + 8) ts with
  | .ok (p, rem) =>
    match rem with
    | t :: _ => .error (.syn ("unexpected token: '" ++ t ++ "'"))
    | [] => .ok p
  | .error e => .error e

/-! ## Theorems -/

/-! ### C8: composite pruning rules -/

/-- C8: for all predicates `A`, `B` and every row group, `can_skip_row_group`
on `And(A,B)` is true iff it is true on `A` or on `B`; on `Or(A,B)` iff it is
true on both; and on `Not(A)` it is always false. -/
theorem C8_composite_pruning (a b : Predicate) (rg : RowGroupMeta) :
    can_skip_row_group (.and a b) rg
        = (can_skip_row_group a rg || can_skip_row_group b rg)
      ∧ can_skip_row_group (.or a b) rg
        = (can_skip_row_group a rg && can_skip_row_group b rg)
      ∧ can_skip_row_group (.not a) rg = false :=
  ⟨rfl, rfl, rfl⟩

/-! ### C7: comparison pruning interval logic -/

/-- The interval logic as the spec states it (§4.3): `Eq` skippable iff
`value < min ∨ value > max`, `Lt` iff `value ≤ min`, `Le` iff `value < min`,
`Gt` iff `value ≥ max`, `Ge` iff `value > max`, `Ne` never.  Stated from the
spec's words, to be compared against the code's `stat_can_skip`. -/
def specIntervalSkip (op : CmpOp) (v mn mx : ℤ) : Bool :=
  match op with
  | .eq => decide (v < mn ∨ v > mx)
  | .lt => decide (v ≤ mn)
  | .le => decide (v < mn)
  | .gt => decide (v ≥ mx)
  | .ge => decide (v > mx)
  | .ne => false

/-- C7: for a row group whose first column chunk named `c` carries integer
(32- or 64-bit) statistics with both min and max present, pruning a
comparison against an integer literal follows exactly the spec's interval
logic; and when the min or the max statistic is absent, the row group is
never skipped. -/
theorem C7_comparison_interval_logic (c : String) (rg : RowGroupMeta)
    (op : CmpOp) (v : ℤ) :
    (∀ mn mx nc, find_col_stats c rg = some (.int64 (some mn) (some mx) nc) →
      can_skip_row_group (.comparison c op (.int v)) rg = specIntervalSkip op v mn mx)
  ∧ (∀ mn mx nc, find_col_stats c rg = some (.int32 (some mn) (some mx) nc) →
      can_skip_row_group (.comparison c op (.int v)) rg = specIntervalSkip op v mn mx)
  ∧ (∀ mx nc, find_col_stats c rg = some (.int64 none mx nc) →
      can_skip_row_group (.comparison c op (.int v)) rg = false)
  ∧ (∀ mn nc, find_col_stats c rg = some (.int64 mn none nc) →
      can_skip_row_group (.comparison c op (.int v)) rg = false)
  ∧ (∀ mx nc, find_col_stats c rg = some (.int32 none mx nc) →
      can_skip_row_group (.comparison c op (.int v)) rg = false)
  ∧ (∀ mn nc, find_col_stats c rg = some (.int32 mn none nc) →
      can_skip_row_group (.comparison c op (.int v)) rg = false) := by
  refine ⟨?_, ?_, ?_, ?_, ?_, ?_⟩
  · intro mn mx nc h
    simp only [can_skip_row_group, h]
    cases op <;> rfl
  · intro mn mx nc h
    simp only [can_skip_row_group, h]
    cases op <;> rfl
  · intro mx nc h
    simp only [can_skip_row_group, h]
    cases mx <;> rfl
  · intro mn nc h
    simp only [can_skip_row_group, h]
    cases mn <;> rfl
  · intro mx nc h
    simp only [can_skip_row_group, h]
    cases mx <;> rfl
  · intro mn nc h
    simp only [can_skip_row_group, h]
    cases mn <;> rfl

/-- A concrete row group for the C7 witness: `age` with int64 statistics
`min = 10`, `max = 20`, null count 0. -/
def rgC7w : RowGroupMeta :=
  ⟨[⟨"age", some (.int64 (some 10) (some 20) (some 0))⟩], 5⟩

/-- Witness for C7 at `age > 55` over statistics `[10, 20]`. -/
theorem C7_comparison_interval_logic_w :
    can_skip_row_group (.comparison "age" .gt (.int 55)) rgC7w
      = specIntervalSkip .gt 55 10 20 :=
  (C7_comparison_interval_logic "age" rgC7w .gt 55).1 10 20 (some 0) rfl

/-! ### C10: float literals over integer columns truncate toward zero -/

/-- C10: when the comparison literal is a float and the column is a 32- or
64-bit integer column, `build_mask` truncates the literal toward zero
(`f64 as i64`) and then compares as integers; in particular `col = 1.9`
marks exactly the rows whose value is `1`, and `col < 1.5` coincides with
`col < 1`.  (`eval_in` reuses `build_mask` with `Eq` per listed value, so
the same truncation applies to IN literals.) -/
theorem C10_float_literal_truncation (vals : List (Option ℤ)) (n : ℕ)
    (op : CmpOp) (q : ℚ) :
    build_mask (.int32 vals) op (.float q) n
        = build_mask (.int32 vals) op (.int (ratTrunc q)) n
      ∧ build_mask (.int64 vals) op (.float q) n
        = build_mask (.int64 vals) op (.int (ratTrunc q)) n
      ∧ build_mask (.int64 vals) .eq (.float (mkRat 19 10)) n
        = maskOfCol vals n (fun v => v == 1)
      ∧ build_mask (.int64 vals) .lt (.float (mkRat 3 2)) n
        = build_mask (.int64 vals) .lt (.int 1) n :=
  ⟨rfl, rfl, rfl, rfl⟩

/-! ### C9: LIKE matching semantics -/

/-- `starts_with s lit` holds exactly when `lit` is a leading run of `s`. -/
theorem starts_with_iff (lit : List Char) :
    ∀ s, starts_with s lit = true ↔ ∃ t, s = lit ++ t := by
  induction lit with
  | nil =>
    intro s
    simp [starts_with]
  | cons d l ih =>
    intro s
    cases s with
    | nil =>
      constructor
      · intro h
        simp [starts_with] at h
      · rintro ⟨t, ht⟩
        simp at ht
    | cons c s' =>
      simp only [starts_with, Bool.and_eq_true, beq_iff_eq, ih]
      constructor
      · rintro ⟨rfl, t, rfl⟩
        exact ⟨t, rfl⟩
      · rintro ⟨t, ht⟩
        injection ht with h1 h2
        exact ⟨h1, t, h2⟩

/-- C9: the compiled LIKE pattern semantics: the empty segment list matches
only the empty text; a literal segment must be a leading run of the text and
the remainder continues; `One` consumes exactly one scalar; `Any` succeeds
iff some split of the remaining text lets the rest match.  Consequently
`foo%` matches `foobar` and `foo` but not `barfoo`; `f_o` matches `foo` but
not `fo` or `fooo`; and `%` matches every string, including the empty one. -/
theorem C9_like_semantics (s lit : List Char) (ps : List LikePart) :
    (like_match_at s [] = true ↔ s = [])
  ∧ (like_match_at s (.literal lit :: ps) = true
      ↔ ∃ t, s = lit ++ t ∧ like_match_at t ps = true)
  ∧ (like_match_at s (.one :: ps) = true
      ↔ ∃ c t, s = c :: t ∧ like_match_at t ps = true)
  ∧ (like_match_at s (.any :: ps) = true
      ↔ ∃ i, i ≤ s.length ∧ like_match_at (s.drop i) ps = true)
  ∧ (∀ u : List Char, like_match_at u (like_to_regex ['%']) = true)
  ∧ like_match "foobar".data (like_to_regex "foo%".data) = true
  ∧ like_match "foo".data (like_to_regex "foo%".data) = true
  ∧ like_match "barfoo".data (like_to_regex "foo%".data) = false
  ∧ like_match "foo".data (like_to_regex "f_o".data) = true
  ∧ like_match "fo".data (like_to_regex "f_o".data) = false
  ∧ like_match "fooo".data (like_to_regex "f_o".data) = false := by
  refine ⟨?_, ?_, ?_, ?_, ?_, by decide, by decide, by decide, by decide, by decide, by decide⟩
  · simp [like_match_at]
  · rw [like_match_at]
    by_cases hs : starts_with s lit = true
    · rw [if_pos hs]
      rcases (starts_with_iff lit s).mp hs with ⟨t, rfl⟩
      rw [List.drop_left]
      constructor
      · intro hm
        exact ⟨t, rfl, hm⟩
      · rintro ⟨t', ht', hm⟩
        have h2 : t = t' := by simpa using ht'
        rw [h2]
        exact hm
    · rw [if_neg hs]
      constructor
      · intro h
        exact absurd h (by simp)
      · rintro ⟨t, rfl, _⟩
        exact absurd ((starts_with_iff lit _).mpr ⟨t, rfl⟩) hs
  · cases s with
    | nil =>
      rw [like_match_at]
      simp
    | cons c tail =>
      show like_match_at tail ps = true ↔ _
      constructor
      · intro h
        exact ⟨c, tail, rfl, h⟩
      · rintro ⟨c', t', ht, hm⟩
        injection ht with h1 h2
        rw [h2]
        exact hm
  · rw [like_match_at, List.any_eq_true]
    constructor
    · rintro ⟨i, hi, h⟩
      exact ⟨i, Nat.lt_succ_iff.mp (List.mem_range.mp hi), h⟩
    · rintro ⟨i, hi, h⟩
      exact ⟨i, List.mem_range.mpr (Nat.lt_succ_of_le hi), h⟩
  · intro u
    have hre : like_to_regex ['%'] = [LikePart.any] := rfl
    rw [hre, like_match_at, List.any_eq_true]
    refine ⟨u.length, List.mem_range.mpr (Nat.lt_succ_self _), ?_⟩
    rw [List.drop_length]
    rfl

/-! ### C3: the parser panics on a lone quote -/

/-- C3: evaluating the parser at the input `x = '` (an unterminated quote).
The lexer emits the one-character token `'`; `parse_value` sees it start
with a quote and calls `strip_quotes`, whose slice `s[1..s.len()-1]` is the
inverted byte range `[1..0)` — a Rust panic, not a syntax error, refuting
the claim that every input yields `Ok` or `Err`. -/
theorem C3_lone_quote_panics :
    parse_predicate "x = '" = .error .panicked := rfl

/-! ### C5: `<>` is never recognized -/

/-- C5: the lexer splits `<>` into the two tokens `<` and `>` (only a
following `=` may combine), so the parser's `<>` arm is unreachable:
`age <> 30` parses the `<` as `Lt`, takes `>` as the value, and then fails
on the trailing `30` — while `age != 30` parses to the `Ne` comparison the
claim expects of both spellings. -/
theorem C5_angle_angle_never_lexed :
    tokenize "age <> 30" = ["age", "<", ">", "30"]
  ∧ parse_predicate "age <> 30" = .error (.syn "unexpected token: '30'")
  ∧ parse_predicate "age != 30" = .ok (.comparison "age" .ne (.int 30)) :=
  ⟨rfl, rfl, rfl⟩

/-! ### C6: the empty IN list does not parse -/

/-- C6: the IN-list loop of `parse_atom` parses a value before looking for
`)`, so on `city IN ()` the `)` token is consumed as the string value `")"`
and the loop then hits end of input: the parse fails instead of yielding
`In(city, [])`.  (The evaluator half of the claim does hold: an `In` with
an empty value list yields an all-false mask, shown here on a concrete
batch.) -/
theorem C6_empty_in_list_rejected :
    parse_predicate "city IN ()" = .error (.syn "unexpected EOF in IN list")
  ∧ eval_predicate_batch (.inn "city" [])
      ⟨[("city", .str [some "A", none])], 2⟩ = [false, false] :=
  ⟨rfl, rfl⟩

/-! ### C1: statistics pruning is unsound for float literals over int columns -/

/-- Claim-side notion (C1's hypothesis): integer min/max are true bounds of
the non-null values. -/
def boundsOkInt (mn mx : ℤ) (vals : List (Option ℤ)) : Bool :=
  vals.all (fun o =>
    match o with
    | some v => decide (mn ≤ v ∧ v ≤ mx)
    | none => true)

/-- Claim-side notion (C1's hypothesis): rational min/max are true bounds of
the non-null values. -/
def boundsOkRat (mn mx : ℚ) (vals : List (Option ℚ)) : Bool :=
  vals.all (fun o =>
    match o with
    | some v => decide (mn ≤ v ∧ v ≤ mx)
    | none => true)

/-- Claim-side notion (C1's hypothesis): the recorded null count is the true
number of null entries. -/
def nullsOk {α : Type} (nc : ℕ) (vals : List (Option α)) : Bool :=
  nc == vals.countP (fun o => o.isNone)

/-- Claim-side notion (C1's hypothesis): a column chunk's statistics are
exact for the decoded column — the statistics' type matches the column's,
min and max are present and bound every non-null value, and the null count
is exact. -/
def colExact : Statistics → Column → Bool
  | .int32 (some mn) (some mx) (some nc), .int32 vals =>
    boundsOkInt mn mx vals && nullsOk nc vals
  | .int64 (some mn) (some mx) (some nc), .int64 vals =>
    boundsOkInt mn mx vals && nullsOk nc vals
  | .float (some mn) (some mx) (some nc), .float32 vals =>
    boundsOkRat mn mx vals && nullsOk nc vals
  | .double (some mn) (some mx) (some nc), .float64 vals =>
    boundsOkRat mn mx vals && nullsOk nc vals
  | _, _ => false

/-- Claim-side notion (C1's hypothesis): every column chunk of the row group
has exact statistics for the batch column of the same name. -/
def rgStatsExact (rg : RowGroupMeta) (b : Batch) : Bool :=
  rg.columns.all (fun cm =>
    match cm.stats, batchColumn b cm.name with
    | some st, some col => colExact st col
    | _, _ => false)

/-- C1's failing row group: `price` int32 statistics `min = 10`, `max = 20`,
null count 0 — exact for `batchC1`. -/
def rgC1 : RowGroupMeta :=
  ⟨[⟨"price", some (.int32 (some 10) (some 20) (some 0))⟩], 2⟩

/-- C1's failing batch: the group's two rows, `price = 10` and `price = 20`. -/
def batchC1 : Batch :=
  ⟨[("price", .int32 [some 10, some 20])], 2⟩

/-- C1's failing predicate: `price = 20.5` (the literal 20.5 = 41/2 is a
float, over an integer column). -/
def predC1 : Predicate :=
  .comparison "price" .eq (.float (mkRat 41 2))

/-- C1: the pruner compares the float literal `20.5` against the int
statistics as rationals (`20.5 > max = 20`, so the group is skipped), but
the evaluator truncates `20.5` to the integer `20` and would match the row
`price = 20`: with exact statistics, a row group containing a matching row
is skipped — pruning produces a false negative, refuting the soundness
claim. -/
theorem C1_pruning_unsound_on_float_literal :
    rgStatsExact rgC1 batchC1 = true
  ∧ can_skip_row_group predC1 rgC1 = true
  ∧ eval_predicate_batch predC1 batchC1 = [false, true] :=
  ⟨rfl, by decide, by decide⟩

/-! ### C2: the end-to-end scenario -/

/-- A row group whose single column `age` carries int64 statistics
`[mn, mx]` with null count 0, holding `nrows` rows. -/
def ageRG (mn mx : ℤ) (nrows : ℕ) : RowGroupMeta :=
  ⟨[⟨"age", some (.int64 (some mn) (some mx) (some 0))⟩], nrows⟩

/-- The C2 scenario file: 4 row groups with `age` min/max `[10,20]`,
`[25,35]`, `[40,50]`, `[5,60]` and the given decoded batches. -/
def c2File (b1 b2 b3 b4 : Batch) : PFile :=
  ⟨["age"],
    [(ageRG 10 20 b1.numRows, b1), (ageRG 25 35 b2.numRows, b2),
     (ageRG 40 50 b3.numRows, b3), (ageRG 5 60 b4.numRows, b4)]⟩

/-- The C2 predicate `age > 55`. -/
def predAgeGt55 : Predicate :=
  .comparison "age" .gt (.int 55)

/-- Concrete batches for the C2 counterexample (row counts 1, 1, 1, 2). -/
def b1C2 : Batch := ⟨[("age", .int64 [some 10])], 1⟩

def b2C2 : Batch := ⟨[("age", .int64 [some 30])], 1⟩

def b3C2 : Batch := ⟨[("age", .int64 [some 45])], 1⟩

def b4C2 : Batch := ⟨[("age", .int64 [some 56, some 5])], 2⟩

/-- C2 counterexample: on the claimed scenario the third group (min/max
`[40,50]`) is also skippable for `age > 55` (`55 ≥ 50`), so `filter_count`
reports 3 skipped row groups, not the 2 the claim states, and scans only
group 4's rows. -/
theorem C2_counterexample :
    (filter_count (c2File b1C2 b2C2 b3C2 b4C2) predAgeGt55).map
        (fun r => (r.skipped_rgs, r.total_rgs, r.scanned_rows))
      = .ok (3, 4, 2)
  ∧ (filter_count (c2File b1C2 b2C2 b3C2 b4C2) predAgeGt55).map
        (fun r => r.skipped_rgs) ≠ .ok 2 := by
  refine ⟨rfl, fun h => ?_⟩
  have h2 : (Except.ok 3 : Except String ℕ) = Except.ok 2 := h
  exact absurd (Except.ok.inj h2) (by decide)

/-- C2 (amended): for every choice of the four groups' decoded batches,
`filter_count` on the scenario file with `age > 55` reports 3 skipped row
groups (the first three), 4 total, and a scanned row count equal to group
4's row count only. -/
theorem C2_amended_scenario (b1 b2 b3 b4 : Batch) :
    (filter_count (c2File b1 b2 b3 b4) predAgeGt55).map
        (fun r => (r.skipped_rgs, r.total_rgs, r.scanned_rows))
      = .ok (3, 4, b4.numRows) :=
  rfl

/-! ### C4: null rows and the evaluator -/

/-- Claim-side notion (C4's hypothesis): the AST contains no `IsNull` and no
`IsNotNull` node. -/
def noNullTests : Predicate → Bool
  | .comparison _ _ _ => true
  | .inn _ _ => true
  | .like _ _ => true
  | .isNull _ => false
  | .isNotNull _ => false
  | .and a b => noNullTests a && noNullTests b
  | .or a b => noNullTests a && noNullTests b
  | .not p => noNullTests p

/-- The amended claim's guard: the AST consists only of `Comparison`, `In`
and `Like` atoms combined with `And`. -/
def andAtoms : Predicate → Bool
  | .comparison _ _ _ => true
  | .inn _ _ => true
  | .like _ _ => true
  | .and a b => andAtoms a && andAtoms b
  | _ => false

/-- Element access of `zipWith` on boolean masks. -/
theorem zipWith_bool_get? (f : Bool → Bool → Bool) :
    ∀ (xs ys : List Bool) (i : ℕ),
      (List.zipWith f xs ys).get? i =
        match xs.get? i, ys.get? i with
        | some a, some b => some (f a b)
        | _, _ => none := by
  intro xs
  induction xs with
  | nil =>
    intro ys i
    cases ys <;> cases i <;> rfl
  | cons x xs ih =>
    intro ys i
    cases ys with
    | nil =>
      cases i with
      | zero => rfl
      | succ j =>
        rcases hx : (x :: xs).get? (j + 1) with _ | a <;> rfl
    | cons y ys =>
      cases i with
      | zero => rfl
      | succ j => simpa using ih ys j

/-- An AND mask is false wherever its left operand is. -/
theorem zip_and_left_false (xs ys : List Bool) (i : ℕ)
    (h : xs.getD i false = false) :
    (List.zipWith (fun x y => x && y) xs ys).getD i false = false := by
  have hx : (xs.get? i).getD false = false := h
  show ((List.zipWith _ xs ys).get? i).getD false = false
  rw [zipWith_bool_get?]
  rcases hxs : xs.get? i with _ | a <;> rcases hys : ys.get? i with _ | b <;> simp_all

/-- An AND mask is false wherever its right operand is. -/
theorem zip_and_right_false (xs ys : List Bool) (i : ℕ)
    (h : ys.getD i false = false) :
    (List.zipWith (fun x y => x && y) xs ys).getD i false = false := by
  have hy : (ys.get? i).getD false = false := h
  show ((List.zipWith _ xs ys).get? i).getD false = false
  rw [zipWith_bool_get?]
  rcases hxs : xs.get? i with _ | a <;> rcases hys : ys.get? i with _ | b <;> simp_all

/-- An OR mask is false wherever both operands are. -/
theorem zip_or_false (xs ys : List Bool) (i : ℕ)
    (h1 : xs.getD i false = false) (h2 : ys.getD i false = false) :
    (List.zipWith (fun x y => x || y) xs ys).getD i false = false := by
  have hx : (xs.get? i).getD false = false := h1
  have hy : (ys.get? i).getD false = false := h2
  show ((List.zipWith _ xs ys).get? i).getD false = false
  rw [zipWith_bool_get?]
  rcases hxs : xs.get? i with _ | a <;> rcases hys : ys.get? i with _ | b <;> simp_all

/-- Reading an all-false mask yields false. -/
theorem getD_replicate_false (n i : ℕ) :
    (List.replicate n false).getD i false = false := by
  show ((List.replicate n false).get? i).getD false = false
  rw [List.get?_eq_getElem?, List.getElem?_replicate]
  split <;> rfl

/-- The per-row mask loop yields false at a null cell. -/
theorem maskOfCol_null {α : Type} (vals : List (Option α)) (n : ℕ)
    (f : α → Bool) (i : ℕ) (h : (vals.getD i none).isNone = true) :
    (maskOfCol vals n f).getD i false = false := by
  show (((List.range n).map _).get? i).getD false = false
  rw [List.get?_map]
  by_cases hin : i < n
  · rw [List.get?_range hin]
    show (match vals.getD i none with | some v => f v | none => false) = false
    rcases hv : vals.getD i none with _ | v
    · rfl
    · rw [hv] at h
      exact absurd h (by simp)
  · rw [List.get?_eq_none.mpr (by simpa using Nat.le_of_not_lt hin)]
    rfl

/-- `build_mask` yields false at a null cell, whatever the operator and
literal. -/
theorem build_mask_null (arr : Column) (op : CmpOp) (val : Value) (n i : ℕ)
    (h : arr.isNullAt i = true) :
    (build_mask arr op val n).getD i false = false := by
  cases arr <;> simp only [Column.isNullAt] at h <;> cases val <;>
    simp only [build_mask] <;>
    first
      | exact getD_replicate_false n i
      | exact maskOfCol_null _ _ _ _ h

/-- The OR-fold of `eval_in` stays false at a null cell. -/
theorem foldl_or_false (arr : Column) (n i : ℕ) (hn : arr.isNullAt i = true) :
    ∀ (vs : List Value) (acc : List Bool), acc.getD i false = false →
      (vs.foldl
          (fun a v => List.zipWith (fun x y => x || y) a (build_mask arr .eq v n))
          acc).getD i false = false := by
  intro vs
  induction vs with
  | nil =>
    intro acc h
    exact h
  | cons v vs ih =>
    intro acc h
    exact ih _ (zip_or_false _ _ _ h (build_mask_null arr .eq v n i hn))

/-- C4 (amended): for every predicate built only from `Comparison`, `In`
and `Like` atoms combined with `And` (no `Not`, no `Or`, and a fortiori no
nullness test), the evaluator's mask is false at every row where a column
referenced by the predicate is null. -/
theorem C4_null_rows_never_match (p : Predicate) (b : Batch) (i : ℕ)
    (c : String) (col : Column)
    (hp : andAtoms p = true)
    (hc : c ∈ predicate_columns p)
    (hcol : batchColumn b c = some col)
    (hnull : col.isNullAt i = true) :
    (eval_predicate_batch p b).getD i false = false := by
  induction p with
  | comparison c' op v =>
    have hcc : c = c' := by simpa [predicate_columns] using hc
    subst hcc
    simp only [eval_predicate_batch, eval_comparison, hcol]
    exact build_mask_null col op v b.numRows i hnull
  | inn c' vals =>
    have hcc : c = c' := by simpa [predicate_columns] using hc
    subst hcc
    simp only [eval_predicate_batch, eval_in, hcol]
    by_cases he : vals.isEmpty
    · rw [if_pos he]
      exact getD_replicate_false _ _
    · rw [if_neg he]
      exact foldl_or_false col b.numRows i hnull vals _ (getD_replicate_false _ _)
  | like c' pat =>
    have hcc : c = c' := by simpa [predicate_columns] using hc
    subst hcc
    simp only [eval_predicate_batch, eval_like, hcol]
    cases col with
    | str vals =>
      simp only [Column.isNullAt] at hnull
      exact maskOfCol_null vals b.numRows
        (fun s => like_match s.data (like_to_regex pat.data)) i hnull
    | int32 vals => exact getD_replicate_false _ _
    | int64 vals => exact getD_replicate_false _ _
    | float32 vals => exact getD_replicate_false _ _
    | float64 vals => exact getD_replicate_false _ _
    | bool vals => exact getD_replicate_false _ _
    | other nulls => exact getD_replicate_false _ _
  | and p q ihp ihq =>
    simp only [andAtoms, Bool.and_eq_true] at hp
    simp only [predicate_columns, List.mem_append] at hc
    simp only [eval_predicate_batch]
    rcases hc with hcl | hcr
    · exact zip_and_left_false _ _ _ (ihp hp.1 hcl)
    · exact zip_and_right_false _ _ _ (ihq hp.2 hcr)
  | isNull c' => simp [andAtoms] at hp
  | isNotNull c' => simp [andAtoms] at hp
  | or p q ihp ihq => simp [andAtoms] at hp
  | not p ih => simp [andAtoms] at hp

/-- The C4 counterexample predicate `NOT (a = 1)` (the claim's own
example). -/
def predC4 : Predicate := .not (.comparison "a" .eq (.int 1))

/-- The C4 counterexample batch: one row, with column `a` null. -/
def batchC4 : Batch := ⟨[("a", .int64 [none])], 1⟩

/-- C4 counterexample: `NOT (a = 1)` contains no nullness test, column `a`
is null at row 0, yet the evaluator's mask is `[true]` — the inner
comparison contributes a plain `false` at the null row and `compute::not`
flips it to `true`, so the mask is not false at that row as the claim
requires. -/
theorem C4_counterexample :
    noNullTests predC4 = true
  ∧ predicate_columns predC4 = ["a"]
  ∧ batchColumn batchC4 "a" = some (.int64 [none])
  ∧ Column.isNullAt (.int64 [none]) 0 = true
  ∧ eval_predicate_batch predC4 batchC4 = [true] :=
  ⟨rfl, rfl, rfl, rfl, rfl⟩

/-- Witness for C4 (amended) at the atom `a = 1` over a batch whose column
`a` is null at row 0. -/
theorem C4_null_rows_never_match_w :
    (eval_predicate_batch (.comparison "a" .eq (.int 1)) batchC4).getD 0 false
      = false :=
  C4_null_rows_never_match (.comparison "a" .eq (.int 1)) batchC4 0 "a"
    (.int64 [none]) rfl (by decide) rfl rfl

end ParquetLens
